import Mathlib

/-!
# Verification of the flint-steel test-execution engine

Shallow embedding of the flint-steel repository (Rust) in Lean 4:

* `src/flint-steel/src/filter.rs` — `TestFilter`, `glob_match`
* `src/flint-steel/src/mock.rs` — `MockWorld`, `MockPlayer`
* `src/flint-steel/src/runner.rs` — `TestRunner::run_test`,
  `TestRunner::execute_action`, `block_matches`
* `src/flint-steel/src/traits.rs` — `Item`, `BlockData` and its `Display`

The types of the external `flint_core` crate (`TestSpec`, `ActionType`,
`TimelineAggregate`, `TestResult`, `AssertionResult`) are not part of the
repository's sources; where they are needed they are modelled from the
specification (marked `Modelled from the spec:` in their doc comments).

Rust machine integers (`i32` coordinates, `u8` slots/counts, `u64` ticks,
`u32` tick numbers) are modelled as `Int`/`Nat`: none of the verified code
paths perform arithmetic that can overflow (`set_block` keys, `tick + 1`,
range bounds), so the embedding is faithful on all inputs the claims touch.
Hash maps (`FxHashMap`) are modelled as update-functions (for the world's
block map and the player's slots, where only lookup/insert/remove are used)
or association lists (for block property maps, which are iterated).
`serde_json::Value` is modelled by the `JsonValue` inductive below; a JSON
number is represented by its `to_string()` rendering, which is the only way
the embedded code ever consumes one.
-/

set_option maxHeartbeats 1000000

namespace FlintSteel

/-- Position in world coordinates, Rust `type BlockPos = [i32; 3]`
(`traits.rs`). -/
structure BlockPos where
  x : Int
  y : Int
  z : Int
deriving DecidableEq

/-- `serde_json::Value` as consumed by the embedded code.  A `Number` is
represented by its `to_string()` rendering (`render`); arrays and objects
are never inspected beyond their tag, so they carry no payload. -/
inductive JsonValue where
  | null
  | bool (b : Bool)
  | num (render : String)
  | str (s : String)
  | arr
  | obj
deriving DecidableEq

/-- `flint_core::test_spec::Block`: identifier plus JSON-valued properties
(shape visible at every use site in `runner.rs` and `mock.rs`). -/
structure Block where
  id : String
  properties : List (String × JsonValue)
deriving DecidableEq

/-- `BlockData` from `traits.rs`: identifier plus string-valued properties. -/
structure BlockData where
  id : String
  properties : List (String × String)
deriving DecidableEq

/-- `BlockData::new` (`traits.rs`). -/
def BlockData.new (id : String) : BlockData :=
  { id := id, properties := [] }

/-- Stable insertion of a property for sorting by key (models the
`sort_by_key` call in `BlockData`'s `Display` impl; property keys coming
from a hash map are distinct, so any by-key sort yields the same list). -/
def insertByKey (kv : String × String) : List (String × String) → List (String × String)
  | [] => [kv]
  | h :: t => if kv.1 ≤ h.1 then kv :: h :: t else h :: insertByKey kv t

/-- Sort an association list by key (see `insertByKey`). -/
def sortByKey (l : List (String × String)) : List (String × String) :=
  l.foldr insertByKey []

/-- The `Display` impl of `BlockData` (`traits.rs`): `id[k=v,...]` with
properties sorted by key, or just `id` when there are none. -/
def BlockData.render (b : BlockData) : String :=
  if b.properties.isEmpty then b.id
  else
    b.id ++ "[" ++
      String.intercalate "," ((sortByKey b.properties).map (fun kv => kv.1 ++ "=" ++ kv.2)) ++
    "]"

/-- The `{:?}` (Debug) rendering of a `[i32; 3]` position, as used in the
`"Block mismatch at {:?}"` format string of `runner.rs`. -/
def pos_repr (p : BlockPos) : String :=
  "[" ++ toString p.x ++ ", " ++ toString p.y ++ ", " ++ toString p.z ++ "]"

/-- An item (`traits.rs`): identifier plus stack count (`u8`). -/
structure Item where
  id : String
  count : Nat
deriving DecidableEq

/-- `Item::new` (`traits.rs`): count defaults to 1. -/
def Item.new (id : String) : Item :=
  { id := id, count := 1 }

/-- `Item::with_count` (`traits.rs`). -/
def Item.with_count (id : String) (count : Nat) : Item :=
  { id := id, count := count }

/-- `flint_core::test_spec::PlayerSlot` (constructor set visible in
`player.rs`, `player_slot_to_index`). -/
inductive PlayerSlot where
  | Hotbar1 | Hotbar2 | Hotbar3 | Hotbar4 | Hotbar5
  | Hotbar6 | Hotbar7 | Hotbar8 | Hotbar9
  | OffHand | Boots | Leggings | Chestplate | Helmet
deriving DecidableEq

/-- `flint_core::test_spec::BlockFace` (variants used in `mock.rs` tests). -/
inductive BlockFace where
  | Top | Bottom | North | South | East | West
deriving DecidableEq

/-! ## Glob matching (`filter.rs`) -/

/-- `glob_match_recursive` from `filter.rs`, on the two character vectors.
The Rust function walks indices `pi`/`ti`; here the lists themselves are
consumed, and the `for i in ti..=text.len()` loop of the `'*'` arm becomes
`List.any` over `text.tails` (the suffixes of `text`, in the same order). -/
def glob_match_recursive : List Char → List Char → Bool
  | [], text => text.isEmpty
  | p :: ps, text =>
    if p = '*' then
      text.tails.any (fun rest => glob_match_recursive ps rest)
    else
      match text with
      | [] => false
      | t :: ts =>
        if p = '?' then glob_match_recursive ps ts
        else t == p && glob_match_recursive ps ts

/-- `glob_match` from `filter.rs`: collect the chars and recurse. -/
def glob_match (pattern text : String) : Bool :=
  glob_match_recursive pattern.toList text.toList

/-- Declarative anchored glob semantics (the language of §4.1 of the spec):
`*` matches zero or more arbitrary characters, `?` exactly one, any other
character itself; the whole text must be consumed. -/
inductive GlobSpec : List Char → List Char → Prop where
  | nil : GlobSpec [] []
  | star (ps pre rest) : GlobSpec ps rest → GlobSpec ('*' :: ps) (pre ++ rest)
  | qmark (ps c ts) : GlobSpec ps ts → GlobSpec ('?' :: ps) (c :: ts)
  | lit (ps c ts) : c ≠ '*' → c ≠ '?' → GlobSpec ps ts → GlobSpec (c :: ps) (c :: ts)

/-! ## Test specifications and filtering -/

/-- One slot of the setup inventory.  Modelled from the spec: mapping from
slot identifier to `{item id, count}` (§3, "Specification"); field use
visible in `runner.rs` (`slot_config.item`, `slot_config.count`). -/
structure SlotConfig where
  item : String
  count : Nat
deriving DecidableEq

/-- Initial player configuration of a spec's setup block.  Modelled from
the spec (§3) with the field accesses of `runner.rs` (`player_config.inventory`,
`player_config.selected_hotbar`). -/
structure PlayerConfig where
  inventory : List (PlayerSlot × SlotConfig)
  selected_hotbar : Nat

/-- A spec's optional setup block.  Modelled from the spec (§3): only the
optional player configuration is consumed by the runner. -/
structure Setup where
  player : Option PlayerConfig

/-- One placement of `PlaceEach` (`runner.rs`: `placement.pos`,
`placement.block`). -/
structure Placement where
  pos : BlockPos
  block : Block

/-- One check of an `Assert` (`runner.rs`: `check.pos`, `check.is`). -/
structure Check where
  pos : BlockPos
  is : Block

/-- `flint_core::test_spec::ActionType` — the closed action variant set
(§3 of the spec; every variant and field is witnessed by the `match` in
`TestRunner::execute_action`, `runner.rs`). -/
inductive ActionType where
  | place (pos : BlockPos) (block : Block)
  | placeEach (blocks : List Placement)
  | fill (corner1 corner2 : BlockPos) (withBlock : Block)
  | remove (pos : BlockPos)
  | assert (checks : List Check)
  | useItemOn (pos : BlockPos) (face : BlockFace) (item : Option String)
  | setSlot (slot : PlayerSlot) (item : Option String) (count : Nat)
  | selectHotbar (slot : Nat)

/-- A timeline entry: a tick number paired with one action.  Modelled from
the spec (§3, "Timeline Entry"); the runner reads `entry.action_type`. -/
structure TimelineEntry where
  tick : Nat
  action_type : ActionType

/-- `flint_core::test_spec::TestSpec`.  Modelled from the spec (§3,
"Specification"); the field list also appears verbatim in the `make_spec`
helper of `filter.rs`'s test module. -/
structure TestSpec where
  flint_version : Option String
  name : String
  description : Option String
  tags : List String
  dependencies : List String
  setup : Option Setup
  timeline : List TimelineEntry
  breakpoints : List Nat

/-- `TestFilter` from `filter.rs`. -/
structure TestFilter where
  tags : List String
  name_patterns : List String
  exact_name : Option String

/-- `TestFilter::all` (`filter.rs`): the `Default` filter, no constraints. -/
def TestFilter.all : TestFilter :=
  { tags := [], name_patterns := [], exact_name := none }

/-- `TestFilter::matches` (`filter.rs`): exact name, then name patterns
(any), then tags (any), all constraints conjunctive and individually
optional. -/
def TestFilter.matches (f : TestFilter) (spec : TestSpec) : Bool :=
  (match f.exact_name with
   | some exact => spec.name == exact
   | none => true) &&
  (f.name_patterns.isEmpty ||
    f.name_patterns.any (fun pattern => glob_match pattern spec.name)) &&
  (f.tags.isEmpty ||
    f.tags.any (fun tag => spec.tags.any (fun t => t == tag)))

/-- `TestFilter::is_empty` (`filter.rs`). -/
def TestFilter.is_empty (f : TestFilter) : Bool :=
  f.tags.isEmpty && f.name_patterns.isEmpty && f.exact_name.isNone

/-! ## Mock backend (`mock.rs`) -/

/-- The string a JSON property value is normalized to when a block is
written (`MockWorld::set_block`, `mock.rs`): strings kept, booleans and
numbers via `to_string()`, anything else becomes the empty string. -/
def json_set_render : JsonValue → String
  | .str s => s
  | .bool b => if b then "true" else "false"
  | .num render => render
  | _ => ""

/-- The `BlockData` stored by `MockWorld::set_block` for a given `Block`
(`mock.rs`). -/
def block_to_data (b : Block) : BlockData :=
  { id := b.id
    properties := b.properties.map (fun kv => (kv.1, json_set_render kv.2)) }

/-- `MockWorld` (`mock.rs`): a block map (`FxHashMap<BlockPos, BlockData>`,
modelled as its lookup function) and a tick counter (`u64`). -/
structure MockWorld where
  blocks : BlockPos → Option BlockData
  tick : Nat

/-- `MockWorld::new` (`mock.rs`): empty block map, tick 0. -/
def MockWorld.new : MockWorld :=
  { blocks := fun _ => none, tick := 0 }

/-- `MockWorld::do_tick` (`mock.rs`): `self.tick += 1`. -/
def MockWorld.do_tick (w : MockWorld) : MockWorld :=
  { w with tick := w.tick + 1 }

/-- `MockWorld::current_tick` (`mock.rs`). -/
def MockWorld.current_tick (w : MockWorld) : Nat :=
  w.tick

/-- `MockWorld::get_block` (`mock.rs`): stored data, or
`BlockData::new("minecraft:air")` for a position never written. -/
def MockWorld.get_block (w : MockWorld) (pos : BlockPos) : BlockData :=
  (w.blocks pos).getD (BlockData.new "minecraft:air")

/-- `MockWorld::set_block` (`mock.rs`): normalize every property value to a
string (`json_set_render`) and insert the result at `pos`. -/
def MockWorld.set_block (w : MockWorld) (pos : BlockPos) (block : Block) : MockWorld :=
  { w with blocks := fun p => if p = pos then some (block_to_data block) else w.blocks p }

/-- `MockPlayer` (`mock.rs`): slot map (`FxHashMap<PlayerSlot, Item>`,
modelled as its lookup function) and selected hotbar slot (`u8`). -/
structure MockPlayer where
  slots : PlayerSlot → Option Item
  selected_hotbar : Nat

/-- `MockPlayer::new` (`mock.rs`): empty slots, hotbar slot 1 selected. -/
def MockPlayer.new : MockPlayer :=
  { slots := fun _ => none, selected_hotbar := 1 }

/-- `MockPlayer::set_slot` (`mock.rs`): `Some` inserts, `None` removes. -/
def MockPlayer.set_slot (p : MockPlayer) (slot : PlayerSlot) (item : Option Item) : MockPlayer :=
  { p with slots := fun s => if s = slot then item else p.slots s }

/-- `MockPlayer::get_slot` (`mock.rs`). -/
def MockPlayer.get_slot (p : MockPlayer) (slot : PlayerSlot) : Option Item :=
  p.slots slot

/-- `MockPlayer::select_hotbar` (`mock.rs`): update only when
`(1..=9).contains(&slot)`, otherwise leave the selection unchanged. -/
def MockPlayer.select_hotbar (p : MockPlayer) (slot : Nat) : MockPlayer :=
  if 1 ≤ slot ∧ slot ≤ 9 then { p with selected_hotbar := slot } else p

/-- `MockPlayer::use_item_on` (`mock.rs`): a no-op in the mock backend. -/
def MockPlayer.use_item_on (p : MockPlayer) (_pos : BlockPos) (_face : BlockFace) : MockPlayer :=
  p

/-! ## The steel-backed player's hotbar logic (`player.rs`)

`SteelTestPlayer` delegates to `steel_core`'s `PlayerInventory`, which is
not part of this repository's sources; the inventory's selected-slot cell
is modelled from the spec. -/

/-- Modelled from the spec: the selected-slot cell of `steel_core`'s
`PlayerInventory` (the crate is external to this repository).  Steel counts
hotbar slots 0–8; per §4.4 a freshly created player reports hotbar 1, so
the fresh cell holds 0. -/
structure PlayerInventory where
  selected_slot : Nat

/-- Modelled from the spec: fresh inventory selects steel-side slot 0
(flint-side hotbar 1, the §4.4 default). -/
def PlayerInventory.new : PlayerInventory :=
  { selected_slot := 0 }

/-- Modelled from the spec: `set_selected_slot` stores the given steel-side
slot index. -/
def PlayerInventory.set_selected_slot (inv : PlayerInventory) (slot : Nat) : PlayerInventory :=
  { inv with selected_slot := slot }

/-- Modelled from the spec: `get_selected_slot` reads the stored index. -/
def PlayerInventory.get_selected_slot (inv : PlayerInventory) : Nat :=
  inv.selected_slot

/-- The hotbar-relevant state of `SteelTestPlayer` (`player.rs`). -/
structure SteelTestPlayer where
  inventory : PlayerInventory

/-- `SteelTestPlayer::select_hotbar` (`player.rs`): guard on `1..=9`, then
store `slot - 1` (flint 1–9 to steel 0–8). -/
def SteelTestPlayer.select_hotbar (p : SteelTestPlayer) (slot : Nat) : SteelTestPlayer :=
  if 1 ≤ slot ∧ slot ≤ 9 then
    { p with inventory := p.inventory.set_selected_slot (slot - 1) }
  else p

/-- `SteelTestPlayer::selected_hotbar` (`player.rs`): stored index plus 1
(steel 0–8 to flint 1–9). -/
def SteelTestPlayer.selected_hotbar (p : SteelTestPlayer) : Nat :=
  p.inventory.get_selected_slot + 1

/-! ## Block assertion matching (`runner.rs`) -/

/-- Strip the `"minecraft:"` prefix when present, the normalization used on
both sides of the identifier comparison in `block_matches` (`runner.rs`,
`&id[10..]` — `"minecraft:"` is 10 ASCII bytes, hence 10 characters).
Stated on the character list so the kernel can evaluate it. -/
def strip_minecraft (id : String) : String :=
  if "minecraft:".toList.isPrefixOf id.toList then { data := id.toList.drop 10 } else id

/-- The string an expected JSON property value is compared as in
`block_matches` (`runner.rs`): strings kept, booleans and numbers via
`to_string()`, `null` and structurally complex values skipped (`none`). -/
def json_cmp_render : JsonValue → Option String
  | .str s => some s
  | .bool b => some (if b then "true" else "false")
  | .num render => some render
  | _ => none

/-- `block_matches` (`runner.rs`): identifiers must agree, either verbatim
or after `strip_minecraft` on both sides; then every expected property —
except the key `"properties"` and any value `json_cmp_render` skips — must
be present in the actual block with exactly the rendered string value. -/
def block_matches (actual : BlockData) (expected : Block) : Bool :=
  (if actual.id == expected.id then true
   else strip_minecraft actual.id == strip_minecraft expected.id) &&
  expected.properties.all (fun kv =>
    if kv.1 == "properties" then true
    else
      match json_cmp_render kv.2 with
      | none => true
      | some expected_str =>
        match actual.properties.lookup kv.1 with
        | some actual_value => actual_value == expected_str
        | none => false)

/-- Strip any `namespace:` prefix (everything up to and including the first
colon).  This is the reading of the claim's words "normalizing away an
optional namespace prefix"; the source only ever strips the literal
`"minecraft:"` prefix, so this definition follows the claim for the
refinement comparison and is deliberately NOT translated from the source. -/
def strip_any_namespace (id : String) : String :=
  if id.toList.any (fun c => c = ':') then
    { data := (id.toList.dropWhile (fun c => c ≠ ':')).tail }
  else id

/-- `block_matches` as the claim words it (any-namespace normalization of
the identifiers; property handling as in the source).  Used only to refute
the claim's identifier clause against the source's `block_matches`. -/
def block_matches_claim (actual : BlockData) (expected : Block) : Bool :=
  (strip_any_namespace actual.id == strip_any_namespace expected.id) &&
  expected.properties.all (fun kv =>
    if kv.1 == "properties" then true
    else
      match json_cmp_render kv.2 with
      | none => true
      | some expected_str =>
        match actual.properties.lookup kv.1 with
        | some actual_value => actual_value == expected_str
        | none => false)

/-! ## Timeline aggregation (`flint_core::timeline`, modelled from §4.2) -/

/-- Componentwise translation of a position by a spatial offset (§4.2). -/
def offset_pos (off : BlockPos) (p : BlockPos) : BlockPos :=
  { x := p.x + off.x, y := p.y + off.y, z := p.z + off.z }

/-- Modelled from the spec (§4.2): apply a spatial offset to every
position-bearing field of an action; `setSlot` and `selectHotbar` carry no
positions. -/
def offset_action (off : BlockPos) : ActionType → ActionType
  | .place pos block => .place (offset_pos off pos) block
  | .placeEach blocks =>
      .placeEach (blocks.map (fun pl => { pos := offset_pos off pl.pos, block := pl.block }))
  | .fill c1 c2 b => .fill (offset_pos off c1) (offset_pos off c2) b
  | .remove pos => .remove (offset_pos off pos)
  | .assert checks =>
      .assert (checks.map (fun c => { pos := offset_pos off c.pos, is := c.is }))
  | .useItemOn pos face item => .useItemOn (offset_pos off pos) face item
  | .setSlot slot item count => .setSlot slot item count
  | .selectHotbar slot => .selectHotbar slot

/-- Offset every position-bearing field of a timeline entry (§4.2). -/
def offset_entry (off : BlockPos) (e : TimelineEntry) : TimelineEntry :=
  { tick := e.tick, action_type := offset_action off e.action_type }

/-- Modelled from the spec (§3/§4.2): the aggregated timeline — a map from
tick to the ordered bucket of `(specIndex, entry, valueIndex)` triples, plus
`max_tick`, the highest tick referenced (0 if none).  The `flint_core`
crate defining `TimelineAggregate` is external to this repository's
sources; the runner (`runner.rs`) reads `timeline.get(&tick)` and
`timeline.max_tick`. -/
structure TimelineAggregate where
  timeline : Nat → List (Nat × TimelineEntry × Nat)
  max_tick : Nat

/-- Modelled from the spec (§4.2): `TimelineAggregate::from_tests` — for
each `(spec, offset)` pair in order, offset each timeline entry and place
the `(specIndex, offsetEntry, valueIndex)` triple in its tick's bucket,
preserving input order; `max_tick` is the maximum tick present, or 0. -/
def TimelineAggregate.from_tests (tests : List (TestSpec × BlockPos)) : TimelineAggregate :=
  let entries : List (Nat × TimelineEntry × Nat) :=
    tests.enum.flatMap (fun it =>
      it.2.1.timeline.enum.map (fun je => (it.1, offset_entry it.2.2 je.2, je.1)))
  { timeline := fun t => entries.filter (fun e => e.2.1.tick == t)
    max_tick := (entries.map (fun e => e.2.1.tick)).foldl max 0 }

/-- The flat entry list `TimelineAggregate.from_tests` buckets (kept as a
separate definition so proofs can speak about it). -/
def aggregate_entries (tests : List (TestSpec × BlockPos)) : List (Nat × TimelineEntry × Nat) :=
  tests.enum.flatMap (fun it =>
    it.2.1.timeline.enum.map (fun je => (it.1, offset_entry it.2.2 je.2, je.1)))

/-! ## Results model (`flint_core::results`, modelled from §3) -/

/-- Modelled from the spec (§3, "Assertion Outcome" / `AssertFailure` in
`runner.rs`): the structured failure payload — failing tick, rendered
message, position, and the expected and actual block descriptions (the
wall-clock `execution_time_ms` option is omitted: real time is not part of
the embedding). -/
structure AssertFailure where
  tick : Nat
  error_message : String
  position : BlockPos
  expected : BlockData
  actual : BlockData
deriving DecidableEq

/-- Modelled from the spec (§3): `Passed(tick)` or `Failed(...)` —
`AssertionResult::Success` / `AssertionResult::Failure` in `runner.rs`. -/
inductive AssertionResult where
  | success (tick : Nat)
  | failure (f : AssertFailure)
deriving DecidableEq

/-- Modelled from the spec (§3, "Test Result"): name, success flag, ordered
assertion outcomes, ticks executed (wall-clock duration omitted).  §4.3
step 5: a run in which no assertion failed is successful, so a fresh result
carries `success := true`. -/
structure TestResult where
  name : String
  success : Bool
  assertions : List AssertionResult
  total_ticks : Nat
deriving DecidableEq

/-- Modelled from the spec: `TestResult::new` — fresh result for a named
test, successful until an assertion fails, nothing recorded yet. -/
def TestResult.new (name : String) : TestResult :=
  { name := name, success := true, assertions := [], total_ticks := 0 }

/-- Modelled from the spec: `TestResult::add_assertion` appends an outcome
to the ordered list. -/
def TestResult.add_assertion (r : TestResult) (a : AssertionResult) : TestResult :=
  { r with assertions := r.assertions ++ [a] }

/-- `ActionOutcome` (`flint_core::results`, variants and payload visible in
`runner.rs`): an ordinary action, a passed assert, or a failed assert. -/
inductive ActionOutcome where
  | action
  | assertPassed
  | assertFailed (f : AssertFailure)
deriving DecidableEq

/-! ## The runner (`runner.rs`), instantiated at the mock backend -/

/-- The per-test execution context threaded through `run_test`: the world,
the lazily created player, and — as instrumentation for the at-most-once
claim — the number of `create_player` calls made on the world so far. -/
structure RunState where
  world : MockWorld
  player : Option MockPlayer
  player_creations : Nat

/-- `player.get_or_insert_with(|| world.create_player())` (`runner.rs`):
create the mock player on first demand, counting the creation. -/
def RunState.ensure_player (st : RunState) : RunState :=
  match st.player with
  | some _ => st
  | none =>
    { st with player := some MockPlayer.new, player_creations := st.player_creations + 1 }

/-- Apply an update to the (present) player. -/
def RunState.modify_player (st : RunState) (f : MockPlayer → MockPlayer) : RunState :=
  { st with player := st.player.map f }

/-- The inclusive coordinate list `min..=max` of the `Fill` loops
(`runner.rs`), on `Int`. -/
def int_range (lo hi : Int) : List Int :=
  (List.range (hi + 1 - lo).toNat).map (fun (i : Nat) => lo + (i : Int))

/-- The positions the `Fill` arm of `execute_action` writes, in loop order:
`x` outermost, then `y`, then `z`, each from the componentwise min to the
componentwise max of the two corners (`runner.rs`). -/
def fill_positions (c1 c2 : BlockPos) : List BlockPos :=
  (int_range (min c1.x c2.x) (max c1.x c2.x)).flatMap (fun x =>
    (int_range (min c1.y c2.y) (max c1.y c2.y)).flatMap (fun y =>
      (int_range (min c1.z c2.z) (max c1.z c2.z)).map (fun z => { x := x, y := y, z := z })))

/-- The expected-side properties rendered into an assert failure
(`runner.rs`): `filter_map` keeping string/boolean/number values as their
string renderings, dropping the rest. -/
def render_expected_props (props : List (String × JsonValue)) : List (String × String) :=
  props.filterMap (fun kv => (json_cmp_render kv.2).map (fun s => (kv.1, s)))

/-- The `AssertFailure` built for a failed check (`runner.rs`): the failing
tick, the `"Block mismatch at {:?}: expected '{}', got '{}'"` message, the
position, and the expected/actual block data. -/
def mk_assert_failure (tick : Nat) (check : Check) (actual : BlockData) : AssertFailure :=
  let expectedBD : BlockData :=
    { id := check.is.id, properties := render_expected_props check.is.properties }
  { tick := tick
    error_message :=
      "Block mismatch at " ++ pos_repr check.pos ++ ": expected '" ++
        expectedBD.render ++ "', got '" ++ actual.render ++ "'"
    position := check.pos
    expected := expectedBD
    actual := actual }

/-- The `Assert` arm of `execute_action` (`runner.rs`): walk the checks in
order, fail on the first mismatching block, pass if all match. -/
def run_checks (w : MockWorld) (tick : Nat) : List Check → ActionOutcome
  | [] => .assertPassed
  | check :: rest =>
    let actual := w.get_block check.pos
    if block_matches actual check.is then run_checks w tick rest
    else .assertFailed (mk_assert_failure tick check actual)

/-- `TestRunner::execute_action` (`runner.rs`), instantiated at the mock
backend, as a state transformer returning the `ActionOutcome`. -/
def execute_action (st : RunState) (action : ActionType) (tick : Nat) :
    RunState × ActionOutcome :=
  match action with
  | .place pos block =>
      ({ st with world := st.world.set_block pos block }, .action)
  | .placeEach blocks =>
      ({ st with world := blocks.foldl (fun w pl => w.set_block pl.pos pl.block) st.world },
        .action)
  | .fill c1 c2 b =>
      ({ st with world := (fill_positions c1 c2).foldl (fun w p => w.set_block p b) st.world },
        .action)
  | .remove pos =>
      ({ st with world := st.world.set_block pos { id := "minecraft:air", properties := [] } },
        .action)
  | .assert checks =>
      (st, run_checks st.world tick checks)
  | .useItemOn pos face item =>
      let st1 := st.ensure_player
      let st2 :=
        match item with
        | some item_id =>
          st1.modify_player (fun p =>
            (p.set_slot .Hotbar1 (some (Item.new item_id))).select_hotbar 1)
        | none => st1
      (st2.modify_player (fun p => p.use_item_on pos face), .action)
  | .setSlot slot item count =>
      let st1 := st.ensure_player
      match item with
      | some item_id =>
        (st1.modify_player (fun p => p.set_slot slot (some (Item.with_count item_id count))),
          .action)
      | none =>
        (st1.modify_player (fun p => p.set_slot slot none), .action)
  | .selectHotbar slot =>
      ((st.ensure_player).modify_player (fun p => p.select_hotbar slot), .action)

/-- The per-tick bucket loop of `run_test` (`runner.rs`): execute the
bucket's actions in order; record `Success(tick)` for a passed assert;
on a failed assert record the failure, clear the success flag, freeze
`total_ticks` at this tick and stop (third component `true`). -/
def run_bucket (st : RunState) (result : TestResult) (tick : Nat) :
    List (Nat × TimelineEntry × Nat) → RunState × TestResult × Bool
  | [] => (st, result, false)
  | e :: rest =>
    let r := execute_action st e.2.1.action_type tick
    match r.2 with
    | .action => run_bucket r.1 result tick rest
    | .assertPassed => run_bucket r.1 (result.add_assertion (.success tick)) tick rest
    | .assertFailed f =>
      (r.1,
        { result.add_assertion (.failure f) with success := false, total_ticks := tick },
        true)

/-- The `for tick in 0..=timeline.max_tick` loop of `run_test`
(`runner.rs`), with `remaining` ticks still to process starting at `tick`:
run the tick's bucket, return at once on a failed assert (before
`do_tick`), otherwise advance the world one tick and continue; after the
last tick record `total_ticks = max_tick`. -/
def run_loop (agg : TimelineAggregate) :
    Nat → Nat → RunState → TestResult → RunState × TestResult
  | _tick, 0, st, result => (st, { result with total_ticks := agg.max_tick })
  | tick, remaining + 1, st, result =>
    let out := run_bucket st result tick (agg.timeline tick)
    if out.2.2 then (out.1, out.2.1)
    else run_loop agg (tick + 1) remaining { out.1 with world := out.1.world.do_tick } out.2.1

/-- The setup phase of `run_test` (`runner.rs`): when the spec carries a
player configuration, create the player, populate the configured inventory
slots in order, and select the configured hotbar slot. -/
def apply_setup (spec : TestSpec) (st : RunState) : RunState :=
  match spec.setup with
  | none => st
  | some setup =>
    match setup.player with
    | none => st
    | some pc =>
      let st1 := st.ensure_player
      let st2 := pc.inventory.foldl
        (fun s slots =>
          s.modify_player (fun p =>
            p.set_slot slots.1 (some (Item.with_count slots.2.item slots.2.count))))
        st1
      st2.modify_player (fun p => p.select_hotbar pc.selected_hotbar)

/-- The single-test aggregate `run_test` builds: just this spec, zero
offset (`runner.rs`: `vec![(spec.clone(), [0i32, 0, 0])]`). -/
def single_aggregate (spec : TestSpec) : TimelineAggregate :=
  TimelineAggregate.from_tests [(spec, { x := 0, y := 0, z := 0 })]

/-- `TestRunner::run_test` (`runner.rs`) at the mock backend
(`MockAdapter::create_test_world` returns `MockWorld::new`), returning the
final execution context alongside the `TestResult` so invariants about the
world and player can be stated.  Wall-clock timing is omitted. -/
def run_test_exec (spec : TestSpec) : RunState × TestResult :=
  let agg := single_aggregate spec
  let result := TestResult.new spec.name
  let st0 : RunState := { world := MockWorld.new, player := none, player_creations := 0 }
  let st1 := apply_setup spec st0
  run_loop agg 0 (agg.max_tick + 1) st1 result

/-- The `TestResult` of `TestRunner::run_test` (`runner.rs`). -/
def run_test (spec : TestSpec) : TestResult :=
  (run_test_exec spec).2

/-! ## Predicates and concrete scenarios used by the claims -/

/-- Is the action an `Assert`? -/
def is_assert : ActionType → Bool
  | .assert _ => true
  | _ => false

/-- Is the action player-touching, i.e. does its `execute_action` arm call
`player.get_or_insert_with(|| world.create_player())` (`runner.rs`)? -/
def is_player_action : ActionType → Bool
  | .useItemOn _ _ _ => true
  | .setSlot _ _ _ => true
  | .selectHotbar _ => true
  | _ => false

/-- Does the spec contain any player-touching occurrence: a setup block
with a player configuration, or a player-touching action in its timeline? -/
def touches_player (spec : TestSpec) : Bool :=
  (match spec.setup with
   | some setup => setup.player.isSome
   | none => false) ||
  spec.timeline.any (fun e => is_player_action e.action_type)

/-- Membership in the inclusive axis-aligned box spanned componentwise by
the two corners. -/
def in_fill_box (c1 c2 p : BlockPos) : Bool :=
  decide (min c1.x c2.x ≤ p.x) && decide (p.x ≤ max c1.x c2.x) &&
  decide (min c1.y c2.y ≤ p.y) && decide (p.y ≤ max c1.y c2.y) &&
  decide (min c1.z c2.z ≤ p.z) && decide (p.z ≤ max c1.z c2.z)

/-- Number of `Assert` entries in a bucket. -/
def count_asserts (l : List (Nat × TimelineEntry × Nat)) : Nat :=
  (l.filter (fun e => is_assert e.2.1.action_type)).length

/-- A failure payload whose message is exactly the
`"Block mismatch at {:?}: expected '{}', got '{}'"` rendering of the
position and the expected/actual block descriptions it carries. -/
def well_formed_failure (f : AssertFailure) : Prop :=
  f.error_message =
    "Block mismatch at " ++ pos_repr f.position ++ ": expected '" ++
      f.expected.render ++ "', got '" ++ f.actual.render ++ "'"

/-- The player-creation invariant of a run: either no player has been
created yet (zero `create_player` calls) or the player exists and exactly
one call was made. -/
def player_invariant (st : RunState) : Prop :=
  (st.player = none ∧ st.player_creations = 0) ∨
  (st.player.isSome = true ∧ st.player_creations = 1)

/-- A bare spec with the given name and timeline (no tags, no setup). -/
def mk_plain_spec (name : String) (timeline : List TimelineEntry) : TestSpec :=
  { flint_version := some "0.1", name := name, description := none, tags := [],
    dependencies := [], setup := none, timeline := timeline, breakpoints := [] }

/-- Scenario A (§8): place "stone" at (0,64,0) at tick 0 and assert
"stone" there at tick 0. -/
def specA : TestSpec :=
  mk_plain_spec "scenario_a"
    [ { tick := 0,
        action_type := .place { x := 0, y := 64, z := 0 } { id := "stone", properties := [] } },
      { tick := 0,
        action_type := .assert
          [ { pos := { x := 0, y := 64, z := 0 },
              is := { id := "stone", properties := [] } } ] } ]

/-- Scenario B (§8): assert "stone" at (0,64,0) with nothing ever written
there. -/
def specB : TestSpec :=
  mk_plain_spec "scenario_b"
    [ { tick := 0,
        action_type := .assert
          [ { pos := { x := 0, y := 64, z := 0 },
              is := { id := "stone", properties := [] } } ] } ]

/-- Scenario C (§8), given corner order: fill (0,0,0)–(1,1,1) with "dirt"
and assert "dirt" at (1,1,1). -/
def specC1 : TestSpec :=
  mk_plain_spec "scenario_c"
    [ { tick := 0,
        action_type := .fill { x := 0, y := 0, z := 0 } { x := 1, y := 1, z := 1 }
          { id := "dirt", properties := [] } },
      { tick := 0,
        action_type := .assert
          [ { pos := { x := 1, y := 1, z := 1 },
              is := { id := "dirt", properties := [] } } ] } ]

/-- Scenario C (§8), inverted corner order. -/
def specC2 : TestSpec :=
  mk_plain_spec "scenario_c_inverted"
    [ { tick := 0,
        action_type := .fill { x := 1, y := 1, z := 1 } { x := 0, y := 0, z := 0 }
          { id := "dirt", properties := [] } },
      { tick := 0,
        action_type := .assert
          [ { pos := { x := 1, y := 1, z := 1 },
              is := { id := "dirt", properties := [] } } ] } ]

/-- Scenario D (§8): set a sword into hotbar slot 1, select hotbar slot 1,
then use the held item on a block face with no explicit item override. -/
def specD : TestSpec :=
  mk_plain_spec "scenario_d"
    [ { tick := 0, action_type := .setSlot .Hotbar1 (some "sword") 1 },
      { tick := 0, action_type := .selectHotbar 1 },
      { tick := 0, action_type := .useItemOn { x := 0, y := 64, z := 0 } .Top none } ]

/-! # Theorems -/

theorem string_toList_eq_nil_iff (s : String) : s.toList = [] ↔ s = "" := by
  rw [String.ext_iff]
  exact Iff.rfl

theorem globSpec_nil_inv {t : List Char} (h : GlobSpec [] t) : t = [] := by
  cases h
  rfl

theorem globSpec_cons_inv {c : Char} {ps t : List Char} (h : GlobSpec (c :: ps) t) :
    (c = '*' ∧ ∃ pre rest, t = pre ++ rest ∧ GlobSpec ps rest) ∨
    (c = '?' ∧ ∃ a ts, t = a :: ts ∧ GlobSpec ps ts) ∨
    (c ≠ '*' ∧ c ≠ '?' ∧ ∃ ts, t = c :: ts ∧ GlobSpec ps ts) := by
  cases h with
  | star ps pre rest hrest => exact Or.inl ⟨rfl, pre, rest, rfl, hrest⟩
  | qmark ps a ts hrest => exact Or.inr (Or.inl ⟨rfl, a, ts, rfl, hrest⟩)
  | lit ps c ts h1 h2 hrest => exact Or.inr (Or.inr ⟨h1, h2, ts, rfl, hrest⟩)

theorem glob_iff (p : List Char) :
    ∀ t, glob_match_recursive p t = true ↔ GlobSpec p t := by
  induction p with
  | nil =>
    intro t
    constructor
    · intro h
      simp only [glob_match_recursive, List.isEmpty_iff] at h
      subst h
      exact GlobSpec.nil
    · intro h
      rw [globSpec_nil_inv h]
      simp [glob_match_recursive]
  | cons c ps ih =>
    intro t
    by_cases hstar : c = '*'
    · subst hstar
      constructor
      · intro h
        simp only [glob_match_recursive, if_true, reduceIte, List.any_eq_true] at h
        obtain ⟨rest, hmem, hg⟩ := h
        obtain ⟨pre, hpre⟩ := (List.mem_tails rest t).mp hmem
        rw [← hpre]
        exact GlobSpec.star ps pre rest ((ih rest).mp hg)
      · intro h
        rcases globSpec_cons_inv h with ⟨_, pre, rest, ht, hrest⟩ | ⟨hc, _⟩ | ⟨hc, _, _⟩
        · subst ht
          simp only [glob_match_recursive, if_true, reduceIte, List.any_eq_true]
          exact ⟨rest, (List.mem_tails rest (pre ++ rest)).mpr (List.suffix_append pre rest),
            (ih rest).mpr hrest⟩
        · exact absurd hc (by decide)
        · exact absurd rfl hc
    · by_cases hq : c = '?'
      · subst hq
        match t with
        | [] =>
          constructor
          · intro h
            simp [glob_match_recursive] at h
          · intro h
            rcases globSpec_cons_inv h with ⟨hc, _⟩ | ⟨_, a, ts, ht, _⟩ | ⟨_, hc, _⟩
            · exact absurd hc (by decide)
            · exact absurd ht (by simp)
            · exact absurd rfl hc
        | a :: ts =>
          constructor
          · intro h
            simp only [glob_match_recursive, if_neg hstar, reduceIte] at h
            exact GlobSpec.qmark ps a ts ((ih ts).mp h)
          · intro h
            rcases globSpec_cons_inv h with ⟨hc, _⟩ | ⟨_, b, ts2, ht, hrest⟩ | ⟨_, hc, _⟩
            · exact absurd hc (by decide)
            · simp only [glob_match_recursive, if_neg hstar, reduceIte]
              rw [List.cons.injEq] at ht
              exact (ih ts).mpr (by rw [ht.2]; exact hrest)
            · exact absurd rfl hc
      · match t with
        | [] =>
          constructor
          · intro h
            simp [glob_match_recursive, hstar] at h
          · intro h
            rcases globSpec_cons_inv h with ⟨hc, _⟩ | ⟨hc, _⟩ | ⟨_, _, ts, ht, _⟩
            · exact absurd hc hstar
            · exact absurd hc hq
            · exact absurd ht (by simp)
        | a :: ts =>
          constructor
          · intro h
            simp only [glob_match_recursive, if_neg hstar, if_neg hq, Bool.and_eq_true,
              beq_iff_eq] at h
            obtain ⟨hac, hg⟩ := h
            subst hac
            exact GlobSpec.lit ps a ts hstar hq ((ih ts).mp hg)
          · intro h
            rcases globSpec_cons_inv h with ⟨hc, _⟩ | ⟨hc, _⟩ | ⟨_, _, ts2, ht, hrest⟩
            · exact absurd hc hstar
            · exact absurd hc hq
            · simp only [glob_match_recursive, if_neg hstar, if_neg hq, Bool.and_eq_true,
                beq_iff_eq]
              rw [List.cons.injEq] at ht
              exact ⟨ht.1, (ih ts).mpr (by rw [ht.2]; exact hrest)⟩

theorem lookup_map_value (f : JsonValue → String) (k : String)
    (l : List (String × JsonValue)) :
    (l.map (fun kv => (kv.1, f kv.2))).lookup k = (l.lookup k).map f := by
  induction l with
  | nil => rfl
  | cons h t ih =>
    by_cases hk : k == h.1
    · simp [List.lookup, hk]
    · simp [List.lookup, hk, ih]

/-- C4: `glob_match` implements anchored glob matching over the full string
(`*` = zero or more characters, `?` = exactly one, others literal), with
exhaustive backtracking — it agrees with the declarative `GlobSpec`
semantics; `*a*b*` matches `xaxbx`; `*` matches every string; the empty
pattern matches exactly the empty string. -/
theorem C4_glob_matching :
    (∀ pattern text : String,
      glob_match pattern text = true ↔ GlobSpec pattern.toList text.toList) ∧
    glob_match "*a*b*" "xaxbx" = true ∧
    (∀ s : String, glob_match "*" s = true) ∧
    glob_match "" "" = true ∧
    (∀ s : String, s ≠ "" → glob_match "" s = false) := by
  refine ⟨fun pattern text => glob_iff pattern.toList text.toList, by decide,
    fun s => ?_, by decide, fun s hs => ?_⟩
  · exact (glob_iff "*".toList s.toList).mpr
      (List.append_nil s.toList ▸ GlobSpec.star [] s.toList [] GlobSpec.nil)
  · have h : s.toList ≠ [] := fun h => hs ((string_toList_eq_nil_iff s).mp h)
    show glob_match_recursive [] s.toList = false
    cases h' : s.toList with
    | nil => exact absurd h' h
    | cons a l => simp [glob_match_recursive]

theorem C4_glob_matching_witness : glob_match "" "x" = false :=
  C4_glob_matching.2.2.2.2 "x" (by decide)

/-- C9: a filter with no constraints (no tags, no name patterns, no exact
name) matches every spec; `matches` is a pure function of the filter and
the spec. -/
theorem C9_empty_filter_matches_all :
    (∀ (f : TestFilter) (spec : TestSpec),
      f.tags = [] → f.name_patterns = [] → f.exact_name = none →
      f.matches spec = true) ∧
    (∀ spec : TestSpec, TestFilter.all.matches spec = true) := by
  constructor
  · intro f spec h1 h2 h3
    simp [TestFilter.matches, h1, h2, h3]
  · intro spec
    simp [TestFilter.matches, TestFilter.all]

theorem C9_empty_filter_matches_all_witness : TestFilter.all.matches specA = true :=
  C9_empty_filter_matches_all.1 TestFilter.all specA rfl rfl rfl

/-- C7: a fresh player has hotbar slot 1 selected; `select_hotbar` updates
the selection exactly for slots 1–9 and silently ignores out-of-range
values (e.g. 0 and 10), both for the mock player and for the steel-backed
player. -/
theorem C7_hotbar_selection :
    MockPlayer.new.selected_hotbar = 1 ∧
    (∀ (p : MockPlayer) (slot : Nat), 1 ≤ slot ∧ slot ≤ 9 →
      (p.select_hotbar slot).selected_hotbar = slot) ∧
    (∀ (p : MockPlayer) (slot : Nat), ¬(1 ≤ slot ∧ slot ≤ 9) →
      p.select_hotbar slot = p) ∧
    ((MockPlayer.new.select_hotbar 0).selected_hotbar = 1 ∧
      (MockPlayer.new.select_hotbar 10).selected_hotbar = 1) ∧
    SteelTestPlayer.selected_hotbar { inventory := PlayerInventory.new } = 1 ∧
    (∀ (p : SteelTestPlayer) (slot : Nat), 1 ≤ slot ∧ slot ≤ 9 →
      (p.select_hotbar slot).selected_hotbar = slot) ∧
    (∀ (p : SteelTestPlayer) (slot : Nat), ¬(1 ≤ slot ∧ slot ≤ 9) →
      p.select_hotbar slot = p) := by
  refine ⟨rfl, fun p slot h => ?_, fun p slot h => ?_, ⟨rfl, rfl⟩, rfl,
    fun p slot h => ?_, fun p slot h => ?_⟩
  · simp [MockPlayer.select_hotbar, h]
  · simp [MockPlayer.select_hotbar, h]
  · simp only [SteelTestPlayer.select_hotbar, if_pos h, SteelTestPlayer.selected_hotbar,
      PlayerInventory.set_selected_slot, PlayerInventory.get_selected_slot]
    omega
  · simp [SteelTestPlayer.select_hotbar, h]

theorem C7_hotbar_selection_witness :
    (MockPlayer.new.select_hotbar 5).selected_hotbar = 5 ∧
    MockPlayer.new.select_hotbar 0 = MockPlayer.new ∧
    (SteelTestPlayer.select_hotbar { inventory := PlayerInventory.new } 10)
      = { inventory := PlayerInventory.new } :=
  ⟨C7_hotbar_selection.2.1 MockPlayer.new 5 (by decide),
    C7_hotbar_selection.2.2.1 MockPlayer.new 0 (by decide),
    C7_hotbar_selection.2.2.2.2.2.2 { inventory := PlayerInventory.new } 10 (by decide)⟩

/-- C8: the mock world reads the deterministic air block at any unwritten
position, and a written block reads back with the same identifier and with
its string, boolean and number properties round-tripped as their string
renderings. -/
theorem C8_mock_world_read_write :
    (∀ pos, MockWorld.new.get_block pos = BlockData.new "minecraft:air") ∧
    (∀ (w : MockWorld) (pos : BlockPos), w.blocks pos = none →
      w.get_block pos = BlockData.new "minecraft:air") ∧
    (∀ (w : MockWorld) (pos : BlockPos) (b : Block),
      ((w.set_block pos b).get_block pos).id = b.id) ∧
    (∀ (w : MockWorld) (pos : BlockPos) (b : Block) (k s : String),
      b.properties.lookup k = some (.str s) →
      ((w.set_block pos b).get_block pos).properties.lookup k = some s) ∧
    (∀ (w : MockWorld) (pos : BlockPos) (b : Block) (k : String) (bo : Bool),
      b.properties.lookup k = some (.bool bo) →
      ((w.set_block pos b).get_block pos).properties.lookup k
        = some (if bo then "true" else "false")) ∧
    (∀ (w : MockWorld) (pos : BlockPos) (b : Block) (k r : String),
      b.properties.lookup k = some (.num r) →
      ((w.set_block pos b).get_block pos).properties.lookup k = some r) := by
  refine ⟨fun pos => rfl, fun w pos h => ?_, fun w pos b => ?_,
    fun w pos b k s h => ?_, fun w pos b k bo h => ?_, fun w pos b k r h => ?_⟩
  · simp [MockWorld.get_block, h]
  · simp [MockWorld.set_block, MockWorld.get_block, block_to_data]
  · simp only [MockWorld.set_block, MockWorld.get_block, block_to_data,
      eq_self_iff_true, if_true, Option.getD_some]
    rw [lookup_map_value json_set_render k, h]
    rfl
  · simp only [MockWorld.set_block, MockWorld.get_block, block_to_data,
      eq_self_iff_true, if_true, Option.getD_some]
    rw [lookup_map_value json_set_render k, h]
    rfl
  · simp only [MockWorld.set_block, MockWorld.get_block, block_to_data,
      eq_self_iff_true, if_true, Option.getD_some]
    rw [lookup_map_value json_set_render k, h]
    rfl

theorem C8_mock_world_read_write_witness :
    MockWorld.new.get_block { x := 0, y := 64, z := 0 } = BlockData.new "minecraft:air" ∧
    ((MockWorld.new.set_block { x := 1, y := 65, z := 2 }
        { id := "minecraft:oak_stairs", properties := [("facing", .str "north")] }).get_block
      { x := 1, y := 65, z := 2 }).properties.lookup "facing" = some "north" :=
  ⟨C8_mock_world_read_write.2.1 MockWorld.new { x := 0, y := 64, z := 0 } rfl,
    C8_mock_world_read_write.2.2.2.1 MockWorld.new { x := 1, y := 65, z := 2 }
      { id := "minecraft:oak_stairs", properties := [("facing", .str "north")] }
      "facing" "north" rfl⟩

/-- C10: `do_tick` increments the tick counter by exactly one and leaves
every position's block unchanged; `set_block` leaves the tick counter and
every other position's block unchanged. -/
theorem C10_frame :
    (∀ w : MockWorld, w.do_tick.tick = w.tick + 1) ∧
    (∀ (w : MockWorld) (pos : BlockPos), w.do_tick.get_block pos = w.get_block pos) ∧
    (∀ (w : MockWorld) (pos : BlockPos) (b : Block), (w.set_block pos b).tick = w.tick) ∧
    (∀ (w : MockWorld) (pos : BlockPos) (b : Block) (q : BlockPos), q ≠ pos →
      (w.set_block pos b).get_block q = w.get_block q) := by
  refine ⟨fun w => rfl, fun w pos => rfl, fun w pos b => rfl, fun w pos b q h => ?_⟩
  simp [MockWorld.set_block, MockWorld.get_block, h]

theorem C10_frame_witness :
    (MockWorld.new.set_block { x := 0, y := 0, z := 0 }
        { id := "stone", properties := [] }).get_block { x := 1, y := 0, z := 0 }
      = MockWorld.new.get_block { x := 1, y := 0, z := 0 } :=
  C10_frame.2.2.2 MockWorld.new { x := 0, y := 0, z := 0 }
    { id := "stone", properties := [] } { x := 1, y := 0, z := 0 } (by decide)

/-- C3 counterexample: with a non-default namespace, "normalizing away an
optional namespace prefix on both sides" (formalized by
`block_matches_claim` via `strip_any_namespace`) declares
`custom:stone` and `stone` equal, but the source's `block_matches` only
strips the `minecraft:` prefix and reports a mismatch. -/
theorem C3_block_matching_counterexample :
    block_matches { id := "stone", properties := [] }
      { id := "custom:stone", properties := [] } = false ∧
    block_matches_claim { id := "stone", properties := [] }
      { id := "custom:stone", properties := [] } = true :=
  ⟨by decide, by decide⟩

/-- C3 (amended): an actual block matches an expected block iff their
identifiers are equal after normalizing away an optional `minecraft:`
prefix on both sides, and every expected property whose value is a string,
boolean or number — except a property literally named `"properties"` —
is present in the actual block with the same normalized string value;
null-valued or structurally complex expected properties and properties
absent from the expectation are not checked. -/
theorem C3_block_matching_amended (actual : BlockData) (expected : Block) :
    block_matches actual expected = true ↔
      (strip_minecraft actual.id = strip_minecraft expected.id ∧
        ∀ kv ∈ expected.properties, kv.1 ≠ "properties" →
          ∀ s, json_cmp_render kv.2 = some s →
            actual.properties.lookup kv.1 = some s) := by
  unfold block_matches
  rw [Bool.and_eq_true]
  apply and_congr
  · by_cases hid : actual.id == expected.id
    · rw [if_pos hid]
      rw [beq_iff_eq] at hid
      simp [hid]
    · rw [if_neg hid]
      exact beq_iff_eq
  · rw [List.all_eq_true]
    constructor
    · intro hall kv hkv hne s hrender
      have h1 := hall kv hkv
      simp only [if_neg (show ¬((kv.1 == "properties") = true) by simpa using hne),
        hrender] at h1
      cases hlk : actual.properties.lookup kv.1 with
      | none => simp [hlk] at h1
      | some av =>
        simp only [hlk] at h1
        exact congrArg some (by simpa using h1)
    · intro hdecl kv hkv
      by_cases hne : kv.1 == "properties"
      · rw [if_pos hne]
      · rw [if_neg hne]
        cases hrender : json_cmp_render kv.2 with
        | none => rfl
        | some es =>
          have hl := hdecl kv hkv (by simpa using hne) es hrender
          rw [hl]
          exact beq_self_eq_true es

theorem mem_int_range (lo hi x : Int) : x ∈ int_range lo hi ↔ lo ≤ x ∧ x ≤ hi := by
  simp only [int_range, List.mem_map, List.mem_range]
  constructor
  · rintro ⟨i, hlt, rfl⟩
    omega
  · rintro ⟨h1, h2⟩
    exact ⟨(x - lo).toNat, by omega, by omega⟩


theorem mem_fill_positions (c1 c2 p : BlockPos) :
    p ∈ fill_positions c1 c2 ↔ in_fill_box c1 c2 p = true := by
  unfold fill_positions in_fill_box
  simp only [List.mem_flatMap, List.mem_map, mem_int_range, Bool.and_eq_true, decide_eq_true_eq]
  constructor
  · rintro ⟨x, hx, y, hy, z, hz, rfl⟩
    exact ⟨⟨⟨⟨⟨hx.1, hx.2⟩, hy.1⟩, hy.2⟩, hz.1⟩, hz.2⟩
  · rintro ⟨⟨⟨⟨⟨hx1, hx2⟩, hy1⟩, hy2⟩, hz1⟩, hz2⟩
    exact ⟨p.x, ⟨hx1, hx2⟩, p.y, ⟨hy1, hy2⟩, p.z, ⟨hz1, hz2⟩, rfl⟩

theorem foldl_set_block_tick (b : Block) :
    ∀ (L : List BlockPos) (w : MockWorld),
      (L.foldl (fun w q => w.set_block q b) w).tick = w.tick := by
  intro L
  induction L with
  | nil => intro w; rfl
  | cons h t ih =>
    intro w
    rw [List.foldl_cons, ih]
    rfl

theorem foldl_set_block_blocks (b : Block) :
    ∀ (L : List BlockPos) (w : MockWorld) (p : BlockPos),
      ((L.foldl (fun w q => w.set_block q b) w).blocks p)
        = if p ∈ L then some (block_to_data b) else w.blocks p := by
  intro L
  induction L with
  | nil => intro w p; simp
  | cons h t ih =>
    intro w p
    rw [List.foldl_cons, ih]
    by_cases hp : p ∈ t
    · simp [hp, List.mem_cons]
    · by_cases hph : p = h
      · simp [hp, hph, MockWorld.set_block]
      · simp [hp, hph, MockWorld.set_block, List.mem_cons]

theorem fill_positions_comm (c1 c2 : BlockPos) :
    fill_positions c1 c2 = fill_positions c2 c1 := by
  unfold fill_positions
  rw [min_comm c1.x c2.x, max_comm c1.x c2.x, min_comm c1.y c2.y, max_comm c1.y c2.y,
    min_comm c1.z c2.z, max_comm c1.z c2.z]

/-- C5: executing `Fill` writes the block, by repeated `set_block` calls,
at exactly the positions of the inclusive axis-aligned box spanned
componentwise by the two corners, leaving everything else (other
positions, the tick counter, the player) unchanged; swapping the corners
yields an identical execution; Scenario C succeeds with either corner
order. -/
theorem C5_fill_box :
    (∀ (st : RunState) (c1 c2 : BlockPos) (b : Block) (tick : Nat) (p : BlockPos),
      ((execute_action st (.fill c1 c2 b) tick).1.world.blocks p
          = if in_fill_box c1 c2 p then some (block_to_data b) else st.world.blocks p) ∧
        (execute_action st (.fill c1 c2 b) tick).1.world.tick = st.world.tick ∧
        (execute_action st (.fill c1 c2 b) tick).1.player = st.player ∧
        (execute_action st (.fill c1 c2 b) tick).2 = .action) ∧
    (∀ (st : RunState) (c1 c2 : BlockPos) (b : Block) (tick : Nat),
      execute_action st (.fill c1 c2 b) tick = execute_action st (.fill c2 c1 b) tick) ∧
    ((run_test specC1).success = true ∧ (run_test specC2).success = true) := by
  refine ⟨fun st c1 c2 b tick p =>
      ⟨?_, foldl_set_block_tick b (fill_positions c1 c2) st.world, rfl, rfl⟩,
    fun st c1 c2 b tick => ?_, by decide, by decide⟩
  · show ((fill_positions c1 c2).foldl (fun w p => w.set_block p b) st.world).blocks p = _
    rw [foldl_set_block_blocks b (fill_positions c1 c2) st.world p]
    by_cases hp : in_fill_box c1 c2 p
    · rw [if_pos ((mem_fill_positions c1 c2 p).mpr hp), if_pos hp]
    · rw [if_neg (fun hmem => hp ((mem_fill_positions c1 c2 p).mp hmem)), if_neg hp]
  · show ({ st with world := (fill_positions c1 c2).foldl (fun w p => w.set_block p b) st.world },
        ActionOutcome.action)
      = ({ st with world := (fill_positions c2 c1).foldl (fun w p => w.set_block p b) st.world },
        ActionOutcome.action)
    rw [fill_positions_comm c1 c2]

theorem foldl_set_place_tick :
    ∀ (L : List Placement) (w : MockWorld),
      (L.foldl (fun w pl => w.set_block pl.pos pl.block) w).tick = w.tick := by
  intro L
  induction L with
  | nil => intro w; rfl
  | cons h t ih =>
    intro w
    rw [List.foldl_cons, ih]
    rfl

theorem ensure_player_world (st : RunState) : (st.ensure_player).world = st.world := by
  unfold RunState.ensure_player
  cases st.player <;> rfl

theorem modify_player_world (st : RunState) (f : MockPlayer → MockPlayer) :
    (st.modify_player f).world = st.world := rfl

theorem execute_action_world_tick (st : RunState) (a : ActionType) (t : Nat) :
    ((execute_action st a t).1).world.tick = st.world.tick := by
  cases a with
  | place pos block => rfl
  | placeEach blocks => exact foldl_set_place_tick blocks st.world
  | fill c1 c2 b => exact foldl_set_block_tick b (fill_positions c1 c2) st.world
  | remove pos => rfl
  | assert checks => rfl
  | useItemOn pos face item =>
    cases item with
    | none =>
      show ((st.ensure_player).modify_player _).world.tick = _
      rw [modify_player_world, ensure_player_world]
    | some i =>
      show (((st.ensure_player).modify_player _).modify_player _).world.tick = _
      rw [modify_player_world, modify_player_world, ensure_player_world]
  | setSlot slot item count =>
    cases item with
    | none =>
      show ((st.ensure_player).modify_player _).world.tick = _
      rw [modify_player_world, ensure_player_world]
    | some i =>
      show ((st.ensure_player).modify_player _).world.tick = _
      rw [modify_player_world, ensure_player_world]
  | selectHotbar slot =>
    show ((st.ensure_player).modify_player _).world.tick = _
    rw [modify_player_world, ensure_player_world]

theorem run_checks_fail (w : MockWorld) (t : Nat) :
    ∀ (checks : List Check) (f : AssertFailure),
      run_checks w t checks = .assertFailed f → f.tick = t ∧ well_formed_failure f := by
  intro checks
  induction checks with
  | nil => intro f h; exact absurd h (by simp [run_checks])
  | cons c rest ih =>
    intro f h
    rw [run_checks] at h
    by_cases hm : block_matches (w.get_block c.pos) c.is
    · rw [if_pos hm] at h
      exact ih f h
    · rw [if_neg hm] at h
      injection h with h1
      subst h1
      exact ⟨rfl, rfl⟩

theorem run_checks_ne_action (w : MockWorld) (t : Nat) :
    ∀ checks : List Check, run_checks w t checks ≠ .action := by
  intro checks
  induction checks with
  | nil => simp [run_checks]
  | cons c rest ih =>
    rw [run_checks]
    by_cases hm : block_matches (w.get_block c.pos) c.is
    · rw [if_pos hm]
      exact ih
    · rw [if_neg hm]
      simp

theorem execute_action_fail (st : RunState) (a : ActionType) (t : Nat) (f : AssertFailure)
    (h : (execute_action st a t).2 = .assertFailed f) :
    (execute_action st a t).1 = st ∧ f.tick = t ∧ well_formed_failure f := by
  cases a with
  | assert checks => exact ⟨rfl, run_checks_fail st.world t checks f h⟩
  | place pos block => exact absurd h (by simp [execute_action])
  | placeEach blocks => exact absurd h (by simp [execute_action])
  | fill c1 c2 b => exact absurd h (by simp [execute_action])
  | remove pos => exact absurd h (by simp [execute_action])
  | useItemOn pos face item => cases item <;> exact absurd h (by simp [execute_action])
  | setSlot slot item count => cases item <;> exact absurd h (by simp [execute_action])
  | selectHotbar slot => exact absurd h (by simp [execute_action])

theorem execute_action_outcome_action (st : RunState) (a : ActionType) (t : Nat)
    (h : (execute_action st a t).2 = .action) : is_assert a = false := by
  cases a with
  | assert checks => exact absurd h (run_checks_ne_action st.world t checks)
  | place pos block => rfl
  | placeEach blocks => rfl
  | fill c1 c2 b => rfl
  | remove pos => rfl
  | useItemOn pos face item => rfl
  | setSlot slot item count => rfl
  | selectHotbar slot => rfl

theorem execute_action_outcome_passed (st : RunState) (a : ActionType) (t : Nat)
    (h : (execute_action st a t).2 = .assertPassed) : is_assert a = true := by
  cases a with
  | assert checks => rfl
  | place pos block => exact absurd h (by simp [execute_action])
  | placeEach blocks => exact absurd h (by simp [execute_action])
  | fill c1 c2 b => exact absurd h (by simp [execute_action])
  | remove pos => exact absurd h (by simp [execute_action])
  | useItemOn pos face item => cases item <;> exact absurd h (by simp [execute_action])
  | setSlot slot item count => cases item <;> exact absurd h (by simp [execute_action])
  | selectHotbar slot => exact absurd h (by simp [execute_action])

theorem ensure_player_pinv (st : RunState) (h : player_invariant st) :
    player_invariant st.ensure_player := by
  unfold RunState.ensure_player
  cases hp : st.player with
  | none =>
    right
    refine ⟨rfl, ?_⟩
    rcases h with ⟨_, hc⟩ | ⟨hs, _⟩
    · simp [hc]
    · rw [hp] at hs
      exact absurd hs (by simp)
  | some p =>
    rcases h with ⟨hn, _⟩ | ⟨hs, hc⟩
    · rw [hp] at hn
      exact absurd hn (by simp)
    · right
      exact ⟨by simp [hp], hc⟩

theorem modify_player_pinv (st : RunState) (f : MockPlayer → MockPlayer)
    (h : player_invariant st) : player_invariant (st.modify_player f) := by
  unfold RunState.modify_player
  rcases h with ⟨hn, hc⟩ | ⟨hs, hc⟩
  · left
    exact ⟨by rw [hn]; rfl, hc⟩
  · right
    refine ⟨?_, hc⟩
    cases hp : st.player with
    | none => rw [hp] at hs; exact absurd hs (by simp)
    | some p => simp [hp]

theorem execute_action_pinv (st : RunState) (a : ActionType) (t : Nat)
    (h : player_invariant st) : player_invariant (execute_action st a t).1 := by
  cases a with
  | place pos block => exact h
  | placeEach blocks => exact h
  | fill c1 c2 b => exact h
  | remove pos => exact h
  | assert checks => exact h
  | useItemOn pos face item =>
    cases item with
    | none => exact modify_player_pinv _ _ (ensure_player_pinv st h)
    | some i => exact modify_player_pinv _ _ (modify_player_pinv _ _ (ensure_player_pinv st h))
  | setSlot slot item count =>
    cases item with
    | none => exact modify_player_pinv _ _ (ensure_player_pinv st h)
    | some i => exact modify_player_pinv _ _ (ensure_player_pinv st h)
  | selectHotbar slot => exact modify_player_pinv _ _ (ensure_player_pinv st h)

theorem execute_action_nonplayer (st : RunState) (a : ActionType) (t : Nat)
    (h : is_player_action a = false) :
    (execute_action st a t).1.player = st.player ∧
      (execute_action st a t).1.player_creations = st.player_creations := by
  cases a with
  | place pos block => exact ⟨rfl, rfl⟩
  | placeEach blocks => exact ⟨rfl, rfl⟩
  | fill c1 c2 b => exact ⟨rfl, rfl⟩
  | remove pos => exact ⟨rfl, rfl⟩
  | assert checks => exact ⟨rfl, rfl⟩
  | useItemOn pos face item => exact absurd h (by simp [is_player_action])
  | setSlot slot item count => exact absurd h (by simp [is_player_action])
  | selectHotbar slot => exact absurd h (by simp [is_player_action])

theorem count_asserts_cons_assert {e : Nat × TimelineEntry × Nat}
    {rest : List (Nat × TimelineEntry × Nat)} (h : is_assert e.2.1.action_type = true) :
    count_asserts (e :: rest) = count_asserts rest + 1 := by
  unfold count_asserts
  rw [List.filter_cons, if_pos (by simp [h])]
  rfl

theorem count_asserts_cons_nonassert {e : Nat × TimelineEntry × Nat}
    {rest : List (Nat × TimelineEntry × Nat)} (h : is_assert e.2.1.action_type = false) :
    count_asserts (e :: rest) = count_asserts rest := by
  unfold count_asserts
  rw [List.filter_cons, if_neg (by simp [h])]

theorem run_bucket_cons (st : RunState) (result : TestResult) (tick : Nat)
    (e : Nat × TimelineEntry × Nat) (rest : List (Nat × TimelineEntry × Nat)) :
    run_bucket st result tick (e :: rest)
      = match (execute_action st e.2.1.action_type tick).2 with
        | .action => run_bucket (execute_action st e.2.1.action_type tick).1 result tick rest
        | .assertPassed =>
          run_bucket (execute_action st e.2.1.action_type tick).1
            (result.add_assertion (.success tick)) tick rest
        | .assertFailed f =>
          ((execute_action st e.2.1.action_type tick).1,
            { result.add_assertion (.failure f) with success := false, total_ticks := tick },
            true) := rfl

theorem run_bucket_spec (tick : Nat) :
    ∀ (entries : List (Nat × TimelineEntry × Nat)) (st : RunState) (result : TestResult),
      (run_bucket st result tick entries).2.1.name = result.name ∧
      (run_bucket st result tick entries).1.world.tick = st.world.tick ∧
      (player_invariant st → player_invariant (run_bucket st result tick entries).1) ∧
      (((run_bucket st result tick entries).2.2 = false ∧
          (run_bucket st result tick entries).2.1.success = result.success ∧
          (run_bucket st result tick entries).2.1.total_ticks = result.total_ticks ∧
          (run_bucket st result tick entries).2.1.assertions
            = result.assertions
                ++ List.replicate (count_asserts entries) (AssertionResult.success tick)) ∨
        ((run_bucket st result tick entries).2.2 = true ∧
          (run_bucket st result tick entries).2.1.success = false ∧
          (run_bucket st result tick entries).2.1.total_ticks = tick ∧
          ∃ n f, (run_bucket st result tick entries).2.1.assertions
              = result.assertions
                  ++ List.replicate n (AssertionResult.success tick)
                  ++ [AssertionResult.failure f] ∧
            f.tick = tick ∧ well_formed_failure f)) := by
  intro entries
  induction entries with
  | nil =>
    intro st result
    refine ⟨rfl, rfl, fun h => h, Or.inl ⟨rfl, rfl, rfl, ?_⟩⟩
    simp [run_bucket, count_asserts]
  | cons e rest ih =>
    intro st result
    rw [run_bucket_cons]
    cases hout : (execute_action st e.2.1.action_type tick).2 with
    | action =>
      obtain ⟨ihn, ihw, ihp, ihd⟩ := ih (execute_action st e.2.1.action_type tick).1 result
      refine ⟨ihn, by rw [ihw, execute_action_world_tick],
        fun h => ihp (execute_action_pinv st _ tick h), ?_⟩
      rw [count_asserts_cons_nonassert (execute_action_outcome_action st _ tick hout)]
      exact ihd
    | assertPassed =>
      obtain ⟨ihn, ihw, ihp, ihd⟩ :=
        ih (execute_action st e.2.1.action_type tick).1 (result.add_assertion (.success tick))
      refine ⟨ihn, by rw [ihw, execute_action_world_tick],
        fun h => ihp (execute_action_pinv st _ tick h), ?_⟩
      rw [count_asserts_cons_assert (execute_action_outcome_passed st _ tick hout)]
      rcases ihd with ⟨h1, h2, h3, h4⟩ | ⟨h1, h2, h3, n, f, h4, h5, h6⟩
      · left
        refine ⟨h1, h2, h3, ?_⟩
        rw [h4, List.replicate_succ]
        show (result.assertions ++ [AssertionResult.success tick]) ++ _ = _
        rw [List.append_assoc]
        rfl
      · right
        refine ⟨h1, h2, h3, n + 1, f, ?_, h5, h6⟩
        rw [h4, List.replicate_succ]
        show ((result.assertions ++ [AssertionResult.success tick])
            ++ List.replicate n (AssertionResult.success tick))
            ++ [AssertionResult.failure f] = _
        rw [List.append_assoc result.assertions]
        rfl
    | assertFailed f =>
      have hfail := execute_action_fail st e.2.1.action_type tick f hout
      refine ⟨rfl, by rw [execute_action_world_tick],
        fun h => execute_action_pinv st _ tick h,
        Or.inr ⟨rfl, rfl, rfl, 0, f, ?_, hfail.2.1, hfail.2.2⟩⟩
      show result.assertions ++ [AssertionResult.failure f] = _
      simp

theorem run_bucket_short_circuit (st : RunState) (result : TestResult) (tick : Nat)
    (e : Nat × TimelineEntry × Nat) (rest rest' : List (Nat × TimelineEntry × Nat))
    (f : AssertFailure) (h : (execute_action st e.2.1.action_type tick).2 = .assertFailed f) :
    run_bucket st result tick (e :: rest) = run_bucket st result tick (e :: rest') := by
  rw [run_bucket_cons, run_bucket_cons, h]

theorem run_loop_succ (agg : TimelineAggregate) (tick r : Nat) (st : RunState)
    (result : TestResult) :
    run_loop agg tick (r + 1) st result
      = if (run_bucket st result tick (agg.timeline tick)).2.2
        then ((run_bucket st result tick (agg.timeline tick)).1,
              (run_bucket st result tick (agg.timeline tick)).2.1)
        else run_loop agg (tick + 1) r
              { (run_bucket st result tick (agg.timeline tick)).1 with
                world := (run_bucket st result tick (agg.timeline tick)).1.world.do_tick }
              (run_bucket st result tick (agg.timeline tick)).2.1 := rfl

theorem run_loop_spec (agg : TimelineAggregate) :
    ∀ (remaining tick : Nat) (st : RunState) (result : TestResult),
      st.world.tick = tick →
      result.success = true →
      (∀ o ∈ result.assertions, ∃ t, o = AssertionResult.success t) →
      (run_loop agg tick remaining st result).2.name = result.name ∧
      (player_invariant st → player_invariant (run_loop agg tick remaining st result).1) ∧
      (((run_loop agg tick remaining st result).2.success = true ∧
          (run_loop agg tick remaining st result).2.total_ticks = agg.max_tick ∧
          (run_loop agg tick remaining st result).1.world.tick = tick + remaining ∧
          (run_loop agg tick remaining st result).2.assertions
            = result.assertions
                ++ (List.range' tick remaining).flatMap
                    (fun t => List.replicate (count_asserts (agg.timeline t))
                      (AssertionResult.success t))) ∨
        ((run_loop agg tick remaining st result).2.success = false ∧
          (run_loop agg tick remaining st result).1.world.tick
            = (run_loop agg tick remaining st result).2.total_ticks ∧
          tick ≤ (run_loop agg tick remaining st result).2.total_ticks ∧
          (run_loop agg tick remaining st result).2.total_ticks < tick + remaining ∧
          ∃ pre f, (run_loop agg tick remaining st result).2.assertions
              = pre ++ [AssertionResult.failure f] ∧
            (∀ o ∈ pre, ∃ t, o = AssertionResult.success t) ∧
            f.tick = (run_loop agg tick remaining st result).2.total_ticks ∧
            well_formed_failure f)) := by
  intro remaining
  induction remaining with
  | zero =>
    intro tick st result htick hsucc _hall
    refine ⟨rfl, fun h => h, Or.inl ⟨hsucc, rfl, by simpa using htick, ?_⟩⟩
    simp [run_loop]
  | succ r ih =>
    intro tick st result htick hsucc hall
    obtain ⟨bn, bw, bp, bd⟩ := run_bucket_spec tick (agg.timeline tick) st result
    rcases bd with ⟨hb0, hbs, hbt, hba⟩ | ⟨hb1, hbs, hbt, n, f, hba, hft, hwf⟩
    · rw [run_loop_succ, hb0]
      simp only [Bool.false_eq_true, if_false]
      have hall2 : ∀ o ∈ (run_bucket st result tick (agg.timeline tick)).2.1.assertions,
          ∃ t, o = AssertionResult.success t := by
        intro o ho
        rw [hba] at ho
        rcases List.mem_append.mp ho with h | h
        · exact hall o h
        · exact ⟨tick, List.eq_of_mem_replicate h⟩
      obtain ⟨ihn, ihp, ihd⟩ := ih (tick + 1)
        { (run_bucket st result tick (agg.timeline tick)).1 with
          world := (run_bucket st result tick (agg.timeline tick)).1.world.do_tick }
        (run_bucket st result tick (agg.timeline tick)).2.1
        (by show (run_bucket st result tick (agg.timeline tick)).1.world.do_tick.tick = _
            rw [MockWorld.do_tick, bw, htick])
        (by rw [hbs, hsucc]) hall2
      refine ⟨by rw [ihn, bn], fun h => ihp (bp h), ?_⟩
      rcases ihd with ⟨i1, i2, i3, i4⟩ | ⟨i1, i2, i3, i4, pre, g, i5, i6, i7, i8⟩
      · left
        refine ⟨i1, i2, by rw [i3]; omega, ?_⟩
        rw [i4, hba, List.range'_succ, List.flatMap_cons, List.append_assoc]
      · right
        refine ⟨i1, i2, le_trans (Nat.le_succ tick) i3, ?_, pre, g, i5, i6, i7, i8⟩
        have h9 : tick + (r + 1) = tick + 1 + r := by omega
        rw [h9]
        exact i4
    · rw [run_loop_succ, hb1]
      simp only [if_true]
      refine ⟨bn, bp, Or.inr ⟨hbs, by rw [bw, htick, hbt], by omega, by rw [hbt]; omega,
        result.assertions ++ List.replicate n (AssertionResult.success tick), f, ?_, ?_,
        by rw [hft, hbt], hwf⟩⟩
      · rw [hba]
      · intro o ho
        rcases List.mem_append.mp ho with h | h
        · exact hall o h
        · exact ⟨tick, List.eq_of_mem_replicate h⟩

theorem foldl_setup_world :
    ∀ (L : List (PlayerSlot × SlotConfig)) (st : RunState),
      (L.foldl
        (fun s slots =>
          s.modify_player (fun p =>
            p.set_slot slots.1 (some (Item.with_count slots.2.item slots.2.count)))) st).world
      = st.world := by
  intro L
  induction L with
  | nil => intro st; rfl
  | cons h t ih =>
    intro st
    rw [List.foldl_cons, ih]
    rfl

theorem foldl_setup_pinv
    (L : List (PlayerSlot × SlotConfig)) (st : RunState) (h : player_invariant st) :
    player_invariant
      (L.foldl
        (fun s slots =>
          s.modify_player (fun p =>
            p.set_slot slots.1 (some (Item.with_count slots.2.item slots.2.count)))) st) := by
  induction L generalizing st with
  | nil => exact h
  | cons hd t ih =>
    rw [List.foldl_cons]
    exact ih _ (modify_player_pinv _ _ h)

theorem apply_setup_world (spec : TestSpec) (st : RunState) :
    (apply_setup spec st).world = st.world := by
  unfold apply_setup
  split
  · rfl
  split
  · rfl
  rw [modify_player_world, foldl_setup_world, ensure_player_world]

theorem apply_setup_pinv (spec : TestSpec) (st : RunState) (h : player_invariant st) :
    player_invariant (apply_setup spec st) := by
  unfold apply_setup
  split
  · exact h
  split
  · exact h
  exact modify_player_pinv _ _ (foldl_setup_pinv _ _ (ensure_player_pinv st h))

theorem apply_setup_no_player (spec : TestSpec) (st : RunState)
    (h : (match spec.setup with
          | some setup => setup.player.isSome
          | none => false) = false) :
    apply_setup spec st = st := by
  unfold apply_setup
  split
  · rfl
  next setup heq =>
    split
    · rfl
    next pc hp =>
      rw [heq] at h
      have h2 : setup.player.isSome = false := h
      rw [hp] at h2
      exact absurd h2 (by simp)

theorem run_bucket_nonplayer (tick : Nat) :
    ∀ (entries : List (Nat × TimelineEntry × Nat)) (st : RunState) (result : TestResult),
      (∀ e ∈ entries, is_player_action e.2.1.action_type = false) →
      (run_bucket st result tick entries).1.player = st.player ∧
      (run_bucket st result tick entries).1.player_creations = st.player_creations := by
  intro entries
  induction entries with
  | nil => intro st result _; exact ⟨rfl, rfl⟩
  | cons e rest ih =>
    intro st result h
    have he := h e (List.mem_cons_self e rest)
    rw [run_bucket_cons]
    cases hout : (execute_action st e.2.1.action_type tick).2 with
    | action =>
      obtain ⟨ih1, ih2⟩ := ih (execute_action st e.2.1.action_type tick).1 result
        (fun x hx => h x (List.mem_cons_of_mem e hx))
      obtain ⟨e1, e2⟩ := execute_action_nonplayer st e.2.1.action_type tick he
      exact ⟨by rw [ih1, e1], by rw [ih2, e2]⟩
    | assertPassed =>
      obtain ⟨ih1, ih2⟩ := ih (execute_action st e.2.1.action_type tick).1
        (result.add_assertion (.success tick)) (fun x hx => h x (List.mem_cons_of_mem e hx))
      obtain ⟨e1, e2⟩ := execute_action_nonplayer st e.2.1.action_type tick he
      exact ⟨by rw [ih1, e1], by rw [ih2, e2]⟩
    | assertFailed f =>
      exact execute_action_nonplayer st e.2.1.action_type tick he

theorem run_loop_nonplayer (agg : TimelineAggregate) :
    ∀ (remaining tick : Nat) (st : RunState) (result : TestResult),
      (∀ (t : Nat) (e : Nat × TimelineEntry × Nat), e ∈ agg.timeline t →
        is_player_action e.2.1.action_type = false) →
      (run_loop agg tick remaining st result).1.player = st.player ∧
      (run_loop agg tick remaining st result).1.player_creations = st.player_creations := by
  intro remaining
  induction remaining with
  | zero => intro tick st result _; exact ⟨rfl, rfl⟩
  | succ r ih =>
    intro tick st result h
    obtain ⟨b1, b2⟩ := run_bucket_nonplayer tick (agg.timeline tick) st result (h tick)
    rw [run_loop_succ]
    cases hb : (run_bucket st result tick (agg.timeline tick)).2.2 with
    | true =>
      simp only [if_true]
      exact ⟨b1, b2⟩
    | false =>
      simp only [Bool.false_eq_true, if_false]
      obtain ⟨ih1, ih2⟩ := ih (tick + 1)
        { (run_bucket st result tick (agg.timeline tick)).1 with
          world := (run_bucket st result tick (agg.timeline tick)).1.world.do_tick }
        (run_bucket st result tick (agg.timeline tick)).2.1 h
      exact ⟨by rw [ih1]; exact b1, by rw [ih2]; exact b2⟩

theorem is_player_action_offset (off : BlockPos) (a : ActionType) :
    is_player_action (offset_action off a) = is_player_action a := by
  cases a <;> rfl

theorem is_assert_offset (off : BlockPos) (a : ActionType) :
    is_assert (offset_action off a) = is_assert a := by
  cases a <;> rfl

theorem single_aggregate_entries (spec : TestSpec) :
    aggregate_entries [(spec, { x := 0, y := 0, z := 0 })]
      = spec.timeline.enum.map
          (fun je => (0, offset_entry { x := 0, y := 0, z := 0 } je.2, je.1)) := by
  unfold aggregate_entries
  simp [List.enum]

theorem single_aggregate_timeline (spec : TestSpec) (t : Nat) :
    (single_aggregate spec).timeline t
      = (aggregate_entries [(spec, { x := 0, y := 0, z := 0 })]).filter
          (fun e => e.2.1.tick == t) := rfl

theorem single_aggregate_max_tick (spec : TestSpec) :
    (single_aggregate spec).max_tick
      = ((aggregate_entries [(spec, { x := 0, y := 0, z := 0 })]).map
          (fun e => e.2.1.tick)).foldl max 0 := rfl

theorem mem_single_timeline (spec : TestSpec) (t : Nat) (e : Nat × TimelineEntry × Nat)
    (h : e ∈ (single_aggregate spec).timeline t) :
    ∃ entry ∈ spec.timeline,
      e.2.1 = offset_entry { x := 0, y := 0, z := 0 } entry := by
  rw [single_aggregate_timeline, single_aggregate_entries] at h
  have hmem := (List.mem_filter.mp h).1
  rw [List.mem_map] at hmem
  obtain ⟨je, hje, rfl⟩ := hmem
  obtain ⟨hi, hx⟩ := List.mem_enum hje
  exact ⟨je.2, hx ▸ spec.timeline.getElem_mem hi, rfl⟩

theorem le_foldl_max :
    ∀ (l : List Nat) (a : Nat), (∀ x ∈ l, x ≤ l.foldl max a) ∧ a ≤ l.foldl max a := by
  intro l
  induction l with
  | nil => intro a; exact ⟨by simp, le_refl a⟩
  | cons h t ih =>
    intro a
    rw [List.foldl_cons]
    obtain ⟨ih1, ih2⟩ := ih (max a h)
    refine ⟨?_, le_trans (le_max_left a h) ih2⟩
    intro x hx
    rcases List.mem_cons.mp hx with rfl | hx
    · exact le_trans (le_max_right a x) ih2
    · exact ih1 x hx

theorem entry_tick_le_max (spec : TestSpec) (e : Nat × TimelineEntry × Nat)
    (h : e ∈ aggregate_entries [(spec, { x := 0, y := 0, z := 0 })]) :
    e.2.1.tick ≤ (single_aggregate spec).max_tick := by
  rw [single_aggregate_max_tick]
  exact (le_foldl_max _ 0).1 e.2.1.tick
    (List.mem_map_of_mem (fun e => e.2.1.tick) h)

theorem length_flatMap_replicate (L : List Nat) (c : Nat → Nat) :
    (L.flatMap (fun t => List.replicate (c t) (AssertionResult.success t))).length
      = (L.map c).sum := by
  induction L with
  | nil => rfl
  | cons a l ih =>
    rw [List.flatMap_cons, List.length_append, List.length_replicate, List.map_cons,
      List.sum_cons, ih]

theorem countP_split (p : Nat × TimelineEntry × Nat → Bool) (n : Nat)
    (L : List (Nat × TimelineEntry × Nat)) :
    L.countP (fun e => p e && decide (e.2.1.tick < n))
        + L.countP (fun e => p e && (e.2.1.tick == n))
      = L.countP (fun e => p e && decide (e.2.1.tick < n + 1)) := by
  induction L with
  | nil => rfl
  | cons a l ih =>
    rw [List.countP_cons, List.countP_cons, List.countP_cons]
    by_cases hp : p a = true
    · by_cases h1 : a.2.1.tick < n
      · have h2 : (a.2.1.tick == n) = false := by
          rw [beq_eq_false_iff_ne]
          omega
        have h3 : a.2.1.tick < n + 1 := by omega
        simp only [hp, h2, decide_eq_true h1, decide_eq_true h3, Bool.true_and,
          Bool.and_false, Bool.false_eq_true, reduceIte]
        omega
      · by_cases h2 : a.2.1.tick = n
        · have h2' : (a.2.1.tick == n) = true := by
            rw [beq_iff_eq]
            exact h2
          have h3 : a.2.1.tick < n + 1 := by omega
          have h1' : decide (a.2.1.tick < n) = false := by
            rw [decide_eq_false_iff_not]
            exact h1
          simp only [hp, h2', h1', decide_eq_true h3, Bool.true_and, Bool.and_false,
            Bool.and_true, Bool.false_eq_true, reduceIte]
          omega
        · have h2' : (a.2.1.tick == n) = false := by
            rw [beq_eq_false_iff_ne]
            exact h2
          have h3 : ¬(a.2.1.tick < n + 1) := by omega
          have h1' : decide (a.2.1.tick < n) = false := by
            rw [decide_eq_false_iff_not]
            exact h1
          have h3' : decide (a.2.1.tick < n + 1) = false := by
            rw [decide_eq_false_iff_not]
            exact h3
          simp only [hp, h2', h1', h3', Bool.true_and, Bool.and_false, Bool.false_eq_true,
            reduceIte]
          omega
    · have hp' : p a = false := by
        rw [Bool.eq_false_iff]
        exact hp
      simp only [hp', Bool.false_and, Bool.false_eq_true, reduceIte]
      omega

theorem sum_count_asserts (spec : TestSpec) (n : Nat) :
    ((List.range n).map
      (fun t => count_asserts ((single_aggregate spec).timeline t))).sum
      = (aggregate_entries [(spec, { x := 0, y := 0, z := 0 })]).countP
          (fun e => is_assert e.2.1.action_type && decide (e.2.1.tick < n)) := by
  induction n with
  | zero =>
    rw [List.range_zero, List.map_nil, List.sum_nil]
    symm
    rw [List.countP_eq_zero]
    intro e _
    simp
  | succ n ih =>
    rw [List.range_succ, List.map_append, List.sum_append, ih, List.map_cons, List.map_nil,
      List.sum_cons, List.sum_nil]
    have hone : count_asserts ((single_aggregate spec).timeline n)
        = (aggregate_entries [(spec, { x := 0, y := 0, z := 0 })]).countP
            (fun e => is_assert e.2.1.action_type && (e.2.1.tick == n)) := by
      rw [single_aggregate_timeline]
      unfold count_asserts
      rw [← List.countP_eq_length_filter, List.countP_filter]
    rw [hone, Nat.add_zero, countP_split]

theorem countP_entries_eq_spec (spec : TestSpec) :
    (aggregate_entries [(spec, { x := 0, y := 0, z := 0 })]).countP
        (fun e => is_assert e.2.1.action_type)
      = spec.timeline.countP (fun entry => is_assert entry.action_type) := by
  rw [single_aggregate_entries, List.countP_map]
  have h1 : spec.timeline.enum.countP
      ((fun e : Nat × TimelineEntry × Nat => is_assert e.2.1.action_type) ∘
        (fun je : Nat × TimelineEntry => (0, offset_entry { x := 0, y := 0, z := 0 } je.2, je.1)))
      = spec.timeline.enum.countP
          (fun je : Nat × TimelineEntry => is_assert je.2.action_type) := by
    apply List.countP_congr
    intro je _
    show (is_assert (offset_action { x := 0, y := 0, z := 0 } je.2.action_type) = true) ↔ _
    rw [is_assert_offset]
  rw [h1]
  conv_rhs => rw [← List.enum_map_snd spec.timeline]
  rw [List.countP_map]
  rfl

theorem run_test_exec_eq (spec : TestSpec) :
    run_test_exec spec
      = run_loop (single_aggregate spec) 0 ((single_aggregate spec).max_tick + 1)
          (apply_setup spec { world := MockWorld.new, player := none, player_creations := 0 })
          (TestResult.new spec.name) := rfl

theorem run_test_spec_facts (spec : TestSpec) :
    player_invariant (run_test_exec spec).1 ∧
    (((run_test spec).success = true ∧
        (run_test spec).total_ticks = (single_aggregate spec).max_tick ∧
        (run_test_exec spec).1.world.tick = (single_aggregate spec).max_tick + 1 ∧
        (run_test spec).assertions
          = (List.range ((single_aggregate spec).max_tick + 1)).flatMap
              (fun t => List.replicate (count_asserts ((single_aggregate spec).timeline t))
                (AssertionResult.success t))) ∨
      ((run_test spec).success = false ∧
        (run_test_exec spec).1.world.tick = (run_test spec).total_ticks ∧
        (run_test spec).total_ticks ≤ (single_aggregate spec).max_tick ∧
        ∃ pre f, (run_test spec).assertions = pre ++ [AssertionResult.failure f] ∧
          (∀ o ∈ pre, ∃ t, o = AssertionResult.success t) ∧
          f.tick = (run_test spec).total_ticks ∧
          well_formed_failure f)) := by
  simp only [run_test, run_test_exec_eq]
  have hloop := run_loop_spec (single_aggregate spec) ((single_aggregate spec).max_tick + 1) 0
    (apply_setup spec { world := MockWorld.new, player := none, player_creations := 0 })
    (TestResult.new spec.name)
    (by rw [apply_setup_world]; rfl)
    rfl
    (by intro o ho; exact absurd ho (List.not_mem_nil o))
  obtain ⟨hn, hp, hd⟩ := hloop
  constructor
  · exact hp (apply_setup_pinv spec _ (Or.inl ⟨rfl, rfl⟩))
  · rcases hd with ⟨h1, h2, h3, h4⟩ | ⟨h1, h2, h3, h4, pre, f, h5, h6, h7, h8⟩
    · left
      refine ⟨h1, h2, by rw [h3, Nat.zero_add], ?_⟩
      rw [h4, List.range_eq_range']
      rfl
    · right
      exact ⟨h1, h2, by omega, pre, f, h5, h6, h7, h8⟩

/-- C1: when an `Assert` check fails at tick `t`, execution stops at once —
the rest of the bucket is irrelevant to the outcome (short-circuit), the
world is never ticked past `t`, the result is unsuccessful with
`total_ticks = t`, and the recorded outcomes are the earlier passes
followed by exactly one failure carrying the failing tick, the position
and the rendered expected-vs-actual block descriptions. -/
theorem C1_assert_failure_stops_run :
    (∀ (st : RunState) (result : TestResult) (tick : Nat)
        (e : Nat × TimelineEntry × Nat) (rest rest' : List (Nat × TimelineEntry × Nat))
        (f : AssertFailure),
      (execute_action st e.2.1.action_type tick).2 = .assertFailed f →
      run_bucket st result tick (e :: rest) = run_bucket st result tick (e :: rest')) ∧
    (∀ spec : TestSpec,
      ((run_test spec).success = false ↔
        ∃ f, AssertionResult.failure f ∈ (run_test spec).assertions) ∧
      ((run_test spec).success = false →
        (run_test spec).total_ticks ≤ (single_aggregate spec).max_tick ∧
        (run_test_exec spec).1.world.tick = (run_test spec).total_ticks ∧
        ∃ pre f, (run_test spec).assertions = pre ++ [AssertionResult.failure f] ∧
          (∀ o ∈ pre, ∃ t, o = AssertionResult.success t) ∧
          f.tick = (run_test spec).total_ticks ∧
          well_formed_failure f)) := by
  refine ⟨run_bucket_short_circuit, fun spec => ?_⟩
  obtain ⟨_, hd⟩ := run_test_spec_facts spec
  constructor
  · constructor
    · intro hfalse
      rcases hd with ⟨h1, _⟩ | ⟨_, _, _, pre, f, h5, _, _, _⟩
      · rw [h1] at hfalse
        exact absurd hfalse (by simp)
      · exact ⟨f, by rw [h5]; exact List.mem_append_right pre (List.mem_singleton_self _)⟩
    · rintro ⟨f, hf⟩
      rcases hd with ⟨_, _, _, h4⟩ | ⟨h1, _⟩
      · rw [h4, List.mem_flatMap] at hf
        obtain ⟨t, _, hmem⟩ := hf
        exact absurd (List.eq_of_mem_replicate hmem) (by simp)
      · exact h1
  · intro hfalse
    rcases hd with ⟨h1, _⟩ | ⟨_, h2, h3, pre, f, h5, h6, h7, h8⟩
    · rw [h1] at hfalse
      exact absurd hfalse (by simp)
    · exact ⟨h3, h2, pre, f, h5, h6, h7, h8⟩

theorem C1_assert_failure_stops_run_witness :
    (run_bucket { world := MockWorld.new, player := none, player_creations := 0 }
        (TestResult.new "scenario_b") 0
        [(0, { tick := 0, action_type := (ActionType.assert
            [{ pos := { x := 0, y := 64, z := 0 },
               is := { id := "stone", properties := [] } }]) }, 0),
         (0, { tick := 0, action_type := ActionType.remove { x := 0, y := 64, z := 0 } }, 1)]
      = run_bucket { world := MockWorld.new, player := none, player_creations := 0 }
          (TestResult.new "scenario_b") 0
          [(0, { tick := 0, action_type := (ActionType.assert
              [{ pos := { x := 0, y := 64, z := 0 },
                 is := { id := "stone", properties := [] } }]) }, 0)]) ∧
    ((run_test specB).total_ticks ≤ (single_aggregate specB).max_tick ∧
      (run_test_exec specB).1.world.tick = (run_test specB).total_ticks ∧
      ∃ pre f, (run_test specB).assertions = pre ++ [AssertionResult.failure f] ∧
        (∀ o ∈ pre, ∃ t, o = AssertionResult.success t) ∧
        f.tick = (run_test specB).total_ticks ∧
        well_formed_failure f) :=
  ⟨C1_assert_failure_stops_run.1 _ _ 0 _ _ _
      (mk_assert_failure 0
        { pos := { x := 0, y := 64, z := 0 }, is := { id := "stone", properties := [] } }
        (MockWorld.new.get_block { x := 0, y := 64, z := 0 }))
      rfl,
    (C1_assert_failure_stops_run.2 specB).2 (by decide)⟩

/-- C2: a run in which no assertion outcome is a failure is successful:
`total_ticks` equals the timeline's `max_tick`, the recorded outcomes are
exactly one `Passed(t)` per `Assert` entry in tick `t`'s bucket, and their
total number equals the number of `Assert` entries of the spec's timeline;
Scenario A (place stone, assert stone, both at tick 0) yields success with
one passed outcome and `total_ticks = max_tick`. -/
theorem C2_successful_run :
    (∀ spec : TestSpec,
      (∀ f, AssertionResult.failure f ∉ (run_test spec).assertions) →
      (run_test spec).success = true ∧
      (run_test spec).total_ticks = (single_aggregate spec).max_tick ∧
      (run_test spec).assertions
        = (List.range ((single_aggregate spec).max_tick + 1)).flatMap
            (fun t => List.replicate (count_asserts ((single_aggregate spec).timeline t))
              (AssertionResult.success t)) ∧
      (run_test spec).assertions.length
        = (spec.timeline.filter (fun entry => is_assert entry.action_type)).length) ∧
    ((run_test specA).success = true ∧
      (run_test specA).assertions = [AssertionResult.success 0] ∧
      (run_test specA).total_ticks = (single_aggregate specA).max_tick) := by
  refine ⟨fun spec hnof => ?_, by decide, by decide, by decide⟩
  obtain ⟨_, hd⟩ := run_test_spec_facts spec
  rcases hd with ⟨h1, h2, h3, h4⟩ | ⟨_, _, _, pre, f, h5, _, _, _⟩
  · refine ⟨h1, h2, h4, ?_⟩
    rw [h4, length_flatMap_replicate, sum_count_asserts spec]
    have hcong : (aggregate_entries [(spec, { x := 0, y := 0, z := 0 })]).countP
        (fun e => is_assert e.2.1.action_type
          && decide (e.2.1.tick < (single_aggregate spec).max_tick + 1))
        = (aggregate_entries [(spec, { x := 0, y := 0, z := 0 })]).countP
            (fun e => is_assert e.2.1.action_type) := by
      apply List.countP_congr
      intro e he
      have ht := entry_tick_le_max spec e he
      rw [Bool.and_eq_true, decide_eq_true_eq]
      constructor
      · exact fun h => h.1
      · exact fun h => ⟨h, by omega⟩
    rw [hcong, countP_entries_eq_spec, List.countP_eq_length_filter]
  · exact absurd (by rw [h5]; exact List.mem_append_right pre (List.mem_singleton_self _))
      (hnof f)

theorem C2_successful_run_witness :
    (run_test specA).success = true ∧
    (run_test specA).total_ticks = (single_aggregate specA).max_tick ∧
    (run_test specA).assertions
      = (List.range ((single_aggregate specA).max_tick + 1)).flatMap
          (fun t => List.replicate (count_asserts ((single_aggregate specA).timeline t))
            (AssertionResult.success t)) ∧
    (run_test specA).assertions.length
      = (specA.timeline.filter (fun entry => is_assert entry.action_type)).length :=
  C2_successful_run.1 specA (by
    intro f hf
    rw [(by decide : (run_test specA).assertions = [AssertionResult.success 0])] at hf
    simp at hf)

/-- C6: during a single run the world's `create_player` is invoked at most
once, and never when the spec has no player-touching occurrence (no setup
player and no `UseItemOn`/`SetSlot`/`SelectHotbar` action); for Scenario D
(`SetSlot` sword into hotbar 1, `SelectHotbar 1`, `UseItemOn` with no item
override) the player is created exactly once, the selected hotbar is 1 and
hotbar slot 1 still holds the sword. -/
theorem C6_player_created_at_most_once :
    (∀ spec : TestSpec, (run_test_exec spec).1.player_creations ≤ 1) ∧
    (∀ spec : TestSpec, touches_player spec = false →
      (run_test_exec spec).1.player_creations = 0 ∧
      (run_test_exec spec).1.player = none) ∧
    ((run_test_exec specD).1.player_creations = 1 ∧
      ((run_test_exec specD).1.player.map (fun p => p.selected_hotbar)) = some 1 ∧
      ((run_test_exec specD).1.player.bind (fun p => p.get_slot PlayerSlot.Hotbar1))
        = some { id := "sword", count := 1 }) := by
  refine ⟨fun spec => ?_, fun spec htouch => ?_, by decide, by decide, by decide⟩
  · obtain ⟨hpinv, _⟩ := run_test_spec_facts spec
    rcases hpinv with ⟨_, hc⟩ | ⟨_, hc⟩
    · omega
    · omega
  · rw [touches_player, Bool.or_eq_false_iff] at htouch
    obtain ⟨h1, h2⟩ := htouch
    have h2' : ∀ entry ∈ spec.timeline, is_player_action entry.action_type = false := by
      intro entry hent
      by_contra hne
      rw [Bool.not_eq_false] at hne
      rw [List.any_eq_true.mpr ⟨entry, hent, hne⟩] at h2
      exact absurd h2 (by simp)
    have hall : ∀ (t : Nat) (e : Nat × TimelineEntry × Nat),
        e ∈ (single_aggregate spec).timeline t →
        is_player_action e.2.1.action_type = false := by
      intro t e he
      obtain ⟨entry, hent, heq⟩ := mem_single_timeline spec t e he
      rw [heq]
      show is_player_action (offset_action { x := 0, y := 0, z := 0 } entry.action_type) = false
      rw [is_player_action_offset]
      exact h2' entry hent
    have hsetup := apply_setup_no_player spec
      { world := MockWorld.new, player := none, player_creations := 0 } h1
    obtain ⟨hp, hc⟩ := run_loop_nonplayer (single_aggregate spec)
      ((single_aggregate spec).max_tick + 1) 0
      (apply_setup spec { world := MockWorld.new, player := none, player_creations := 0 })
      (TestResult.new spec.name) hall
    rw [hsetup] at hp hc
    rw [run_test_exec_eq, hsetup]
    exact ⟨hc, hp⟩

theorem C6_player_created_at_most_once_witness :
    (run_test_exec specB).1.player_creations = 0 ∧ (run_test_exec specB).1.player = none :=
  C6_player_created_at_most_once.2.1 specB (by decide)

end FlintSteel
